import Mathlib

/-!
# Verification of the canadensis transfer-layer core

A shallow embedding of the components of the `canadensis` repository that the
claims refer to:

* the 48-bit unsigned integer type `U48` and the 48-bit microsecond instant
  (src/canadensis_core/src/time/u48.rs),
* the publisher (src/canadensis/src/publisher.rs),
* the bxCAN link driver (src/canadensis_bxcan/src/lib.rs),
* the bit cursors exercised by the composite round-trip test
  (src/canadensis_encoding/tests/composite1.rs).

Machine integers are embedded as `Nat` with explicit reduction modulo `2^w`
where the Rust code wraps (release-mode semantics).  Code of the repository
that is only declared or tested under src/ is modelled from the spec; each
such definition carries a doc comment starting with `Modelled from the spec:`.
-/

namespace Canadensis

/-! ## 48-bit integers and time (src/canadensis_core/src/time/u48.rs) -/

/-- The constant `U48_MASK = 0x0000ffffffffffff` from u48.rs.
Bitwise `and` with this mask equals reduction modulo `2^48`. -/
def U48_MASK : Nat := 0x0000ffffffffffff

/-- `U48::MIN`. -/
def U48_MIN : Nat := 0

/-- `U48::MAX`. -/
def U48_MAX : Nat := U48_MASK

/-- Rust `u64::wrapping_sub`: subtraction modulo `2^64`. -/
def u64_wrapping_sub (a b : Nat) : Nat := (a + (2 ^ 64 - b % 2 ^ 64)) % 2 ^ 64

/-- `U48::wrapping_add`: u64 wrapping addition then `& U48_MASK`. -/
def u48_wrapping_add (a b : Nat) : Nat := (a + b) % 2 ^ 64 % 2 ^ 48

/-- `U48::wrapping_sub`: u64 wrapping subtraction then `& U48_MASK`. -/
def u48_wrapping_sub (a b : Nat) : Nat := u64_wrapping_sub a b % 2 ^ 48

/-- `Add for U48` in release mode: the u64 sum wraps modulo `2^64` and is then
masked with `U48_MASK`. -/
def u48_add_release (a b : Nat) : Nat := (a + b) % 2 ^ 64 % 2 ^ 48

/-- `Sub for U48` in release mode: the u64 difference wraps modulo `2^64` and is
then masked with `U48_MASK`. -/
def u48_sub_release (a b : Nat) : Nat := u64_wrapping_sub a b % 2 ^ 48

/-- `Mul<u32> for U48` in release mode: the u64 product wraps modulo `2^64` and
is then masked with `U48_MASK`. -/
def u48_mul_release (a rhs : Nat) : Nat := (a * rhs) % 2 ^ 64 % 2 ^ 48

/-- `Div<u32> for U48`: plain u64 division (the Rust code panics when
`rhs = 0`; `Nat` division then yields `0`, which also satisfies the bound). -/
def u48_div (a rhs : Nat) : Nat := a / rhs

/-- `Shr<u32> for U48` in release mode: the shift amount of a u64 shift is
masked to `rhs % 64`. -/
def u48_shr (a rhs : Nat) : Nat := a / 2 ^ (rhs % 64)

/-- `Rem<u32> for U48`: plain u64 remainder (the Rust code panics when
`rhs = 0`; `Nat` then yields `a`, which also satisfies the bound). -/
def u48_rem (a rhs : Nat) : Nat := a % rhs

/-- `From<u32> for U48` (also covers `From<u8>` and `From<u16>`): the small
integer is injected unchanged. -/
def u48_from_u32 (v : Nat) : Nat := v

/-- `TryFrom<u64> for U48`: succeeds exactly when the 16 most significant bits
are clear, i.e. `value & !U48_MASK == 0`, i.e. `value < 2^48`. -/
def u48_try_from_u64 (v : Nat) : Option Nat :=
  if v < 2 ^ 48 then some v else none

/-- Modelled from the spec: the body of `overflow_safe_compare` for the 48-bit
instant `Microseconds48` is not under src/.  Spec section 4.1 defines it by
`d = (a - b) mod 2^48` with Equal for `d = 0`, Greater while `d` is in the lower
half range and Less beyond it; the unit test `instant_u48_compare` in
src/canadensis_core/src/time/u48.rs (which is under src/) pins the boundary
case `d = 2^47` to Greater, so the half-range test is `d ≤ 2^47`.
The modular difference is taken with `U48::wrapping_sub` from src/. -/
def overflow_safe_compare (a b : Nat) : Ordering :=
  let d := u48_wrapping_sub a b
  if d = 0 then Ordering.eq
  else if d ≤ 2 ^ 47 then Ordering.gt
  else Ordering.lt

/-- Modelled from the spec: `duration_since` for `Microseconds48` is not under
src/.  Spec section 4.1: the duration is the modular subtraction of the tick
counts, computed with `U48::wrapping_sub` from src/. -/
def duration_since (later earlier : Nat) : Nat := u48_wrapping_sub later earlier

/-! ## Transfers, frames and the outgoing queue

`canadensis_core::transfer` and `canadensis_can` (the transmitter and its
frame queue) are not under src/; they are modelled from the spec below.  The
publisher (src/canadensis/src/publisher.rs) is embedded on top of them. -/

/-- A message transfer header (`canadensis_core::transfer::MessageHeader`):
deadline timestamp, transfer id, priority, subject and optional source. -/
structure MsgHeader where
  timestamp : Nat
  transfer_id : Nat
  priority : Nat
  subject : Nat
  source : Option Nat
deriving DecidableEq

/-- A message transfer: header plus payload bytes. -/
structure TransferMsg where
  header : MsgHeader
  payload : List Nat
deriving DecidableEq

/-- A CAN frame (`canadensis_can::Frame`): deadline timestamp, 29-bit CAN id
value and data bytes. -/
structure CFrame where
  timestamp : Nat
  id : Nat
  frameData : List Nat
deriving DecidableEq

/-- One shift step of CRC-16/CCITT-FALSE (poly 0x1021, MSB first). -/
def crc16_bit (crc : Nat) : Nat :=
  let shifted := (crc * 2) % 2 ^ 16
  if crc / 2 ^ 15 % 2 = 1 then shifted ^^^ 0x1021 else shifted

/-- Feed one byte into CRC-16/CCITT-FALSE. -/
def crc16_update (crc byte : Nat) : Nat :=
  crc16_bit^[8] (crc ^^^ (byte % 256 * 256))

/-- CRC-16/CCITT-FALSE of a byte sequence (init 0xFFFF, no reflection,
no xor-out), per spec section 6. -/
def crc16 (bytes : List Nat) : Nat := bytes.foldl crc16_update 0xFFFF

/-- Modelled from the spec (section 4.3): the message-transfer CAN id layout of
`canadensis_can::CanId` is not under src/.  Bits 28..26 priority, bit 26
service flag = 0, bit 25 anonymous flag, bits 24..8 carry the 13-bit subject,
bits 7..0 the source (or pseudo) node id. -/
def canid_message (priority subject : Nat) (source : Option Nat) : Nat :=
  priority % 8 * 2 ^ 26
    + (match source with | some _ => 0 | none => 1) * 2 ^ 25
    + subject % 2 ^ 13 * 2 ^ 8
    + (match source with | some s => s | none => 0) % 2 ^ 7

/-- The tail byte (spec section 4.3): bit 7 start-of-transfer, bit 6
end-of-transfer, bit 5 toggle, bits 4..0 the transfer id. -/
def tailByte (sot eot toggle : Bool) (tid : Nat) : Nat :=
  (if sot then 128 else 0) + (if eot then 64 else 0) + (if toggle then 32 else 0)
    + tid % 32

/-- Chunk a list into pieces of `cap` elements; the first argument is fuel
(structural recursion), instantiated with the list length. -/
def chunkFuel (cap : Nat) : Nat → List Nat → List (List Nat)
  | 0, _ => []
  | _, [] => []
  | fuel + 1, x :: rest => (x :: rest).take cap :: chunkFuel cap fuel ((x :: rest).drop cap)

/-- Chunk a list into pieces of `cap` elements (`cap ≥ 1` in all uses). -/
def chunkList (cap : Nat) (l : List Nat) : List (List Nat) := chunkFuel cap l.length l

/-- Modelled from the spec (section 4.4.1): the transmitter frame split of
`canadensis_can::Transmitter` is not under src/.  With `cap = mtu - 1`, a
payload of at most `cap` bytes becomes one frame with tail byte SOT=EOT=
toggle=1; a longer payload is extended by its little-endian CRC-16 and chunked
into `cap`-byte pieces, each followed by a tail byte with SOT on the first
frame, EOT on the last and alternating toggle starting at 1; all frames share
the transfer CanId and deadline timestamp. -/
def framesOfTransfer (mtu : Nat) (t : TransferMsg) : List CFrame :=
  let cap := mtu - 1
  let tid := t.header.transfer_id
  let cid := canid_message t.header.priority t.header.subject t.header.source
  if t.payload.length ≤ cap then
    [⟨t.header.timestamp, cid, t.payload ++ [tailByte true true true tid]⟩]
  else
    let c := crc16 t.payload
    let chunks := chunkList cap (t.payload ++ [c % 256, c / 256 % 256])
    chunks.enum.map fun p =>
      ⟨t.header.timestamp, cid,
        p.2 ++ [tailByte (p.1 = 0) (p.1 = chunks.length - 1) (p.1 % 2 = 0) tid]⟩

/-- Insert a frame into a priority-ordered frame list, behind every frame of
equal or higher priority (lower CanId value pops first; FIFO among equal ids),
per spec section 4.5. -/
def queue_push_frame (f : CFrame) : List CFrame → List CFrame
  | [] => [f]
  | g :: gs => if f.id < g.id then f :: g :: gs else g :: queue_push_frame f gs

/-- Modelled from the spec (sections 4.4 and 4.5): the outgoing side of
`canadensis_can::Transmitter` is not under src/.  It owns a bounded
priority-ordered frame queue; `pushed` is a ghost record of the transfers
accepted so far (it does not influence any operation). -/
structure Transmitter where
  mtu : Nat
  capacity : Nat
  queue : List CFrame
  pushed : List TransferMsg
deriving DecidableEq

/-- Modelled from the spec (section 4.4 step 3): `Transmitter::push` splits the
transfer into frames and enqueues them atomically: if the queue lacks capacity
for any frame, none are enqueued and the operation fails with `OutOfMemory`
(`none`). -/
def transmitter_push (tx : Transmitter) (t : TransferMsg) : Option Transmitter :=
  let fs := framesOfTransfer tx.mtu t
  if tx.queue.length + fs.length ≤ tx.capacity then
    some { tx with queue := fs.foldl (fun q f => queue_push_frame f q) tx.queue,
                   pushed := tx.pushed ++ [t] }
  else none

/-! ## The publisher (src/canadensis/src/publisher.rs) -/

/-- Modelled from the spec (section 3): `TransferId::increment` of
`canadensis_core` is not under src/; the transfer id is a 5-bit counter that
wraps modulo 32. -/
def transferId_increment (t : Nat) : Nat := (t + 1) % 32

/-- Modelled from the spec (section 4.4 step 1): `Duration + Instant` for the
48-bit instant is not under src/; instant arithmetic is modular at the width
(spec section 3). -/
def duration_add_instant (timeout now : Nat) : Nat := (timeout + now) % 2 ^ 48

/-- `Publisher` (publisher.rs): next transfer id, send timeout, priority and
source node id. -/
structure Publisher where
  next_transfer_id : Nat
  timeout : Nat
  priority : Nat
  source : Nat
deriving DecidableEq

/-- `Publisher::send_payload` (publisher.rs lines 58-83): assemble the transfer
from the stored fields, increment `next_transfer_id`, then push the transfer.
The increment happens before the push, so it is not rolled back when the push
fails with `OutOfMemory` (`false` in the first component). -/
def send_payload (pub : Publisher) (subject : Nat) (payload : List Nat)
    (deadline : Nat) (tx : Transmitter) : Bool × Publisher × Transmitter :=
  let transfer : TransferMsg :=
    { header := { timestamp := deadline, transfer_id := pub.next_transfer_id,
                  priority := pub.priority, subject := subject,
                  source := some pub.source },
      payload := payload }
  let pub' := { pub with next_transfer_id := transferId_increment pub.next_transfer_id }
  match transmitter_push tx transfer with
  | some tx' => (true, pub', tx')
  | none => (false, pub', tx)

/-- `Publisher::publish` (publisher.rs lines 38-56): compute the deadline
`now + timeout` and delegate to `send_payload`.  Serialization of the payload
(`do_serialize`, not under src/) produces the byte list passed here; it does
not touch the publisher or transmitter state. -/
def publish (pub : Publisher) (now subject : Nat) (payloadBytes : List Nat)
    (tx : Transmitter) : Bool × Publisher × Transmitter :=
  send_payload pub subject payloadBytes (duration_add_instant pub.timeout now) tx

/-! ## The bxCAN link driver (src/canadensis_bxcan/src/lib.rs)

The bxCAN peripheral and the `bxcan` crate are external collaborators (spec
sections 1 and 6); their frame type and transmit-mailbox behaviour are
modelled below.  The conversion functions, `send_frame`, `send_frames`,
`clean_expired_frames`, `DeadlineTracker` and `receive_frames` are embedded
from src/canadensis_bxcan/src/lib.rs. -/

/-- A bxCAN frame identifier: 11-bit standard or 29-bit extended. -/
inductive BxId where
  | standard (raw : Nat)
  | extended (raw : Nat)
deriving DecidableEq

/-- A bxCAN frame: identifier and optional data (remote frames carry none). -/
structure BxFrame where
  id : BxId
  data : Option (List Nat)
deriving DecidableEq

/-- Modelled from the spec (section 4.3): `CanId::try_from(u32)` of
`canadensis_can` is not under src/.  It accepts only 29-bit values and
"rejects IDs where reserved bits do not conform to the protocol profile";
the reserved-bit conformance test is not specified further, so it is kept as
the parameter `validExtra`. -/
def canid_valid (validExtra : Nat → Bool) (raw : Nat) : Bool :=
  decide (raw < 2 ^ 29) && validExtra raw

/-- `uavcan_frame_to_bxcan` (lib.rs lines 282-286): `ExtendedId::new` of the
29-bit id value (its `unwrap` panics on wider values, modelled as `none`) and
`bxcan::Data::new` of the data bytes (its `expect` panics beyond 8 bytes,
modelled as `none`). -/
def uavcan_frame_to_bxcan (f : CFrame) : Option BxFrame :=
  if f.id < 2 ^ 29 ∧ f.frameData.length ≤ 8 then
    some ⟨BxId.extended f.id, some f.frameData⟩
  else none

/-- `bxcan_frame_to_uavcan` (lib.rs lines 292-307): a standard id, an id
rejected by `CanId::try_from`, or an absent data field yield
`InvalidFrameFormat` (`none`); otherwise the canadensis frame carries the
supplied timestamp, the id and the data bytes. -/
def bxcan_frame_to_uavcan (validExtra : Nat → Bool) (f : BxFrame)
    (timestamp : Nat) : Option CFrame :=
  match f.id with
  | BxId.standard _ => none
  | BxId.extended raw =>
    if canid_valid validExtra raw then
      match f.data with
      | none => none
      | some d => some ⟨timestamp, raw, d⟩
    else none

/-- The three transmit mailboxes of a bxCAN peripheral. -/
inductive BxMailbox where
  | mb0
  | mb1
  | mb2
deriving DecidableEq

/-- Modelled from the spec (section 6): the state of the bxCAN peripheral's
transmit mailboxes (the peripheral is an external collaborator). -/
structure BxCan where
  mb0 : Option BxFrame
  mb1 : Option BxFrame
  mb2 : Option BxFrame
deriving DecidableEq

/-- Arbitration value of a frame id for mailbox scheduling: a lower value is a
higher priority.  An 11-bit standard id compares as the high bits of a 29-bit
value and wins a tie against an extended id (dominant IDE bit). -/
def bx_prio : BxId → Nat
  | BxId.standard raw => 2 * (raw * 2 ^ 18)
  | BxId.extended raw => 2 * raw + 1

/-- Result of `Can::transmit_and_get_mailbox`: the frame was placed in a
mailbox (possibly bumping a pending lower-priority frame out), or every
mailbox holds a frame of equal or higher priority. -/
inductive TransmitOutcome where
  | placed (removed : Option BxFrame) (mailbox : BxMailbox)
  | wouldBlock
deriving DecidableEq

/-- Modelled from the spec (section 6): the bxCAN transmit scheduler is an
external collaborator.  A free mailbox (lowest index first) receives the
frame; otherwise the pending frame with the lowest priority is bumped out and
replaced when the new frame has strictly higher priority; otherwise the
peripheral reports WouldBlock. -/
def bx_transmit (can : BxCan) (f : BxFrame) : TransmitOutcome × BxCan :=
  match can.mb0, can.mb1, can.mb2 with
  | none, _, _ => (TransmitOutcome.placed none BxMailbox.mb0, { can with mb0 := some f })
  | some _, none, _ => (TransmitOutcome.placed none BxMailbox.mb1, { can with mb1 := some f })
  | some _, some _, none => (TransmitOutcome.placed none BxMailbox.mb2, { can with mb2 := some f })
  | some g0, some g1, some g2 =>
    let v0 := bx_prio g0.id
    let v1 := bx_prio g1.id
    let v2 := bx_prio g2.id
    if v1 ≤ v0 ∧ v2 ≤ v0 then
      if bx_prio f.id < v0 then
        (TransmitOutcome.placed (some g0) BxMailbox.mb0, { can with mb0 := some f })
      else (TransmitOutcome.wouldBlock, can)
    else if v2 ≤ v1 ∧ v0 ≤ v1 then
      if bx_prio f.id < v1 then
        (TransmitOutcome.placed (some g1) BxMailbox.mb1, { can with mb1 := some f })
      else (TransmitOutcome.wouldBlock, can)
    else
      if bx_prio f.id < v2 then
        (TransmitOutcome.placed (some g2) BxMailbox.mb2, { can with mb2 := some f })
      else (TransmitOutcome.wouldBlock, can)

/-- `DeadlineTracker` (lib.rs lines 251-275): the deadline for the frame in
each transmit mailbox, if any. -/
structure DeadlineTracker where
  d0 : Option Nat
  d1 : Option Nat
  d2 : Option Nat
deriving DecidableEq

/-- `DeadlineTracker::get`. -/
def tracker_get (t : DeadlineTracker) : BxMailbox → Option Nat
  | BxMailbox.mb0 => t.d0
  | BxMailbox.mb1 => t.d1
  | BxMailbox.mb2 => t.d2

/-- `DeadlineTracker::replace`: store a deadline and return the previous one. -/
def tracker_replace (t : DeadlineTracker) (mb : BxMailbox) (v : Nat) :
    Option Nat × DeadlineTracker :=
  match mb with
  | BxMailbox.mb0 => (t.d0, { t with d0 := some v })
  | BxMailbox.mb1 => (t.d1, { t with d1 := some v })
  | BxMailbox.mb2 => (t.d2, { t with d2 := some v })

/-- Modelled from the spec (section 4.5): the outgoing frame queue of
`canadensis_can` is not under src/; a bounded priority-ordered frame buffer. -/
structure OutQueue where
  frames : List CFrame
  capacity : Nat
deriving DecidableEq

/-- `pop_frame`: remove the currently-highest-priority frame (the head of the
ordered list). -/
def queue_pop (q : OutQueue) : Option (CFrame × OutQueue) :=
  match q.frames with
  | [] => none
  | f :: rest => some (f, { q with frames := rest })

/-- Reinsert a previously popped frame ahead of every frame of equal or lower
priority, restoring the queue order. -/
def insert_return (f : CFrame) : List CFrame → List CFrame
  | [] => [f]
  | g :: gs => if f.id ≤ g.id then f :: g :: gs else g :: insert_return f gs

/-- Modelled from the spec (section 4.5): `return_frame` reinserts a frame
previously popped but not transmitted, restoring priority ordering; it fails
with `OutOfMemory` (`none`) when the queue is at capacity. -/
def queue_return (q : OutQueue) (f : CFrame) : Option OutQueue :=
  if q.frames.length < q.capacity then
    some { q with frames := insert_return f q.frames }
  else none

/-- `return_frame` with the `OutOfMemory` result ignored, as in the
`let _ = ...return_frame(...)` calls of lib.rs: on failure the queue is left
unchanged and the frame is lost. -/
def queue_return_or_keep (q : OutQueue) (f : CFrame) : OutQueue :=
  (queue_return q f).getD q

/-- The state touched by the send path: the node's outgoing frame queue, the
bxCAN peripheral and the deadline tracker. -/
structure TxState where
  queue : OutQueue
  can : BxCan
  deadlines : DeadlineTracker
deriving DecidableEq

/-- Outcome of one `send_frame` call.  `panicked` marks the `expect`/`unwrap`
panics of lib.rs; the returned state is then the entry state (the process
aborts). -/
inductive SendOutcome where
  | ok
  | wouldBlock
  | panicked
deriving DecidableEq

/-- `send_frame` (lib.rs lines 180-226): convert the frame, submit it via
`transmit_and_get_mailbox`; on placement record the deadline; on a bump
reinsert the removed frame with the deadline previously tracked for that
mailbox; on WouldBlock put the frame back in the queue and report WouldBlock. -/
def send_frame (validExtra : Nat → Bool) (st : TxState) (frame : CFrame) :
    SendOutcome × TxState :=
  match uavcan_frame_to_bxcan frame with
  | none => (SendOutcome.panicked, st)
  | some bxf =>
    match bx_transmit st.can bxf with
    | (TransmitOutcome.placed none mb, can2) =>
      (SendOutcome.ok,
        { st with can := can2,
                  deadlines := (tracker_replace st.deadlines mb frame.timestamp).2 })
    | (TransmitOutcome.placed (some removed) mb, can2) =>
      match (tracker_replace st.deadlines mb frame.timestamp).1 with
      | none => (SendOutcome.panicked, st)
      | some removedDeadline =>
        match bxcan_frame_to_uavcan validExtra removed removedDeadline with
        | none => (SendOutcome.panicked, st)
        | some removedFrame =>
          (SendOutcome.ok,
            { queue := queue_return_or_keep st.queue removedFrame,
              can := can2,
              deadlines := (tracker_replace st.deadlines mb frame.timestamp).2 })
    | (TransmitOutcome.wouldBlock, _) =>
      (SendOutcome.wouldBlock, { st with queue := queue_return_or_keep st.queue frame })

/-- One mailbox slot after `clean_expired_frames`: aborted (emptied) when a
tracked deadline has strictly passed. -/
def clean_mailbox (deadlines : DeadlineTracker) (now : Nat) (mb : BxMailbox)
    (slot : Option BxFrame) : Option BxFrame :=
  match tracker_get deadlines mb with
  | some d => if overflow_safe_compare now d = Ordering.gt then none else slot
  | none => slot

/-- `clean_expired_frames` (lib.rs lines 232-246): abort transmission in every
mailbox whose tracked deadline has strictly passed (`now` compares Greater). -/
def clean_expired_frames (deadlines : DeadlineTracker) (can : BxCan) (now : Nat) :
    BxCan :=
  { mb0 := clean_mailbox deadlines now BxMailbox.mb0 can.mb0,
    mb1 := clean_mailbox deadlines now BxMailbox.mb1 can.mb1,
    mb2 := clean_mailbox deadlines now BxMailbox.mb2 can.mb2 }

/-- Trace of what `send_frames` did with each popped frame: discarded as
expired, placed in a mailbox, or attempted and returned to the queue. -/
inductive TxEvent where
  | dropped (f : CFrame)
  | sent (f : CFrame)
  | blocked (f : CFrame)
deriving DecidableEq

/-- Result of the `send_frames` loop.  `outOfFuel` marks exhaustion of the
fuel that makes the recursion structural; every claim is proved for all fuel
values. -/
inductive LoopResult where
  | ok
  | wouldBlock
  | panicked
  | outOfFuel
deriving DecidableEq

/-- The `while let Some(frame) = ...pop_frame()` loop of `send_frames`
(lib.rs lines 151-171): drop a popped frame whose deadline compares Less than
`now`, otherwise submit it with `send_frame`; stop with WouldBlock when no
mailbox is open. -/
def send_frames_go (validExtra : Nat → Bool) (now : Nat) :
    Nat → TxState → LoopResult × TxState × List TxEvent
  | 0, st => (LoopResult.outOfFuel, st, [])
  | fuel + 1, st =>
    match queue_pop st.queue with
    | none => (LoopResult.ok, st, [])
    | some (f, q2) =>
      let st1 : TxState := { st with queue := q2 }
      match overflow_safe_compare f.timestamp now with
      | Ordering.gt | Ordering.eq =>
        match send_frame validExtra st1 f with
        | (SendOutcome.ok, st2) =>
          let r := send_frames_go validExtra now fuel st2
          (r.1, r.2.1, TxEvent.sent f :: r.2.2)
        | (SendOutcome.wouldBlock, st2) =>
          (LoopResult.wouldBlock, st2, [TxEvent.blocked f])
        | (SendOutcome.panicked, st2) => (LoopResult.panicked, st2, [])
      | Ordering.lt =>
        let r := send_frames_go validExtra now fuel st1
        (r.1, r.2.1, TxEvent.dropped f :: r.2.2)

/-- `send_frames` (lib.rs lines 138-174): clean expired mailbox frames, then
drain the outgoing queue. -/
def send_frames (validExtra : Nat → Bool) (now fuel : Nat) (st : TxState) :
    LoopResult × TxState × List TxEvent :=
  send_frames_go validExtra now fuel
    { st with can := clean_expired_frames st.deadlines st.can now }

/-- A frame is pending in one of the three transmit mailboxes. -/
def inMailboxes (can : BxCan) (bf : BxFrame) : Prop :=
  can.mb0 = some bf ∨ can.mb1 = some bf ∨ can.mb2 = some bf

/-! ## The receive path (src/canadensis_bxcan/src/lib.rs lines 84-106) -/

/-- One result of `Can::receive` inside the receive loop: a frame, or a FIFO
overflow error (the loop ends at WouldBlock, modelled by the end of the
event list). -/
inductive RxEvent where
  | frame (f : BxFrame)
  | overflow
deriving DecidableEq

/-- `BxCanNode::receive_frames` (lib.rs lines 84-106): for each received
frame, sample the clock, convert; on conversion failure drop the frame
silently and continue; otherwise `accept_frame` (here the abstract `accept`,
whose `none` is the only propagated error, `OutOfMemory`).  A FIFO overflow is
logged and the loop continues.  `clocks` is the stream of clock samples, one
consumed per received frame. -/
def receive_frames {σ : Type} (validExtra : Nat → Bool)
    (accept : σ → CFrame → Option σ) :
    List RxEvent → List Nat → σ → Option σ
  | [], _, s => some s
  | RxEvent.overflow :: rest, clocks, s =>
    receive_frames validExtra accept rest clocks s
  | RxEvent.frame bf :: rest, clocks, s =>
    match bxcan_frame_to_uavcan validExtra bf (clocks.headD 0) with
    | none => receive_frames validExtra accept rest clocks.tail s
    | some cf =>
      match accept s cf with
      | none => none
      | some s2 => receive_frames validExtra accept rest clocks.tail s2

/-- The frames of an event stream that convert successfully, with their
timestamps. -/
def decodedFrames (validExtra : Nat → Bool) :
    List RxEvent → List Nat → List CFrame
  | [], _ => []
  | RxEvent.overflow :: rest, clocks => decodedFrames validExtra rest clocks
  | RxEvent.frame bf :: rest, clocks =>
    match bxcan_frame_to_uavcan validExtra bf (clocks.headD 0) with
    | none => decodedFrames validExtra rest clocks.tail
    | some cf => cf :: decodedFrames validExtra rest clocks.tail

/-- Feed a list of frames to `accept`, stopping at the first `OutOfMemory`. -/
def processAll {σ : Type} (accept : σ → CFrame → Option σ) :
    List CFrame → σ → Option σ
  | [], s => some s
  | cf :: rest, s =>
    match accept s cf with
    | none => none
    | some s2 => processAll accept rest s2

/-! ## Bit cursors and the composite round-trip test
(src/canadensis_encoding/tests/composite1.rs)

The cursors of `canadensis_encoding` are not under src/ (only the test is);
they are modelled from spec section 4.2: a little-endian LSB-first bit stream
over a byte buffer. -/

/-- The numeric value of one bit. -/
def bitVal : Bool → Nat
  | false => 0
  | true => 1

/-- The `n` low bits of `v`, least significant first. -/
def natToBits : Nat → Nat → List Bool
  | 0, _ => []
  | n + 1, v => decide (v % 2 = 1) :: natToBits n (v / 2)

/-- The value of an LSB-first bit list. -/
def bitsToNat : List Bool → Nat
  | [] => 0
  | b :: rest => bitVal b + 2 * bitsToNat rest

/-- Pack an LSB-first bit stream into bytes, eight bits per byte, the last
byte zero-padded in its high bits. -/
def bitsToBytes : List Bool → List Nat
  | [] => []
  | b0 :: b1 :: b2 :: b3 :: b4 :: b5 :: b6 :: b7 :: rest =>
    bitsToNat [b0, b1, b2, b3, b4, b5, b6, b7] :: bitsToBytes rest
  | l => [bitsToNat l]

/-- The eight bits of a byte, least significant first. -/
def byteToBits (v : Nat) : List Bool := natToBits 8 v

/-- Unpack bytes into an LSB-first bit stream. -/
def bytesToBits (bs : List Nat) : List Bool := (bs.map byteToBits).flatten

/-- Zero bits needed to reach the next byte boundary from bit offset `k`. -/
def padCount (k : Nat) : Nat := (8 - k % 8) % 8

/-- Modelled from the spec (section 4.2): the write cursor of
`canadensis_encoding` is not under src/; its state is the LSB-first bit
stream written so far. -/
structure WriteCursor where
  bits : List Bool
deriving DecidableEq

/-- `WriteCursor::write_bool`: append one bit. -/
def WriteCursor.write_bool (c : WriteCursor) (b : Bool) : WriteCursor :=
  ⟨c.bits ++ [b]⟩

/-- `WriteCursor::write_uN`: append the `n` low bits of `v`, LSB first. -/
def WriteCursor.write_u (c : WriteCursor) (n v : Nat) : WriteCursor :=
  ⟨c.bits ++ natToBits n v⟩

/-- `WriteCursor::align_to_8_bits`: pad with zero bits up to the next byte
boundary. -/
def WriteCursor.align_to_8_bits (c : WriteCursor) : WriteCursor :=
  ⟨c.bits ++ List.replicate (padCount c.bits.length) false⟩

/-- Modelled from the spec (section 4.2): the read cursor of
`canadensis_encoding` is not under src/; `bits` is the remaining stream and
`consumed` the current bit offset; reading past the end yields zero bits. -/
structure ReadCursor where
  bits : List Bool
  consumed : Nat
deriving DecidableEq

/-- `ReadCursor::read_bool`: consume one bit (zero past the end). -/
def ReadCursor.read_bool (c : ReadCursor) : Bool × ReadCursor :=
  (c.bits.headD false, ⟨c.bits.tail, c.consumed + 1⟩)

/-- `ReadCursor::read_uN`: consume `n` bits, LSB first. -/
def ReadCursor.read_u : Nat → ReadCursor → Nat × ReadCursor
  | 0, c => (0, c)
  | n + 1, c =>
    (bitVal c.read_bool.1 + 2 * (ReadCursor.read_u n c.read_bool.2).1,
     (ReadCursor.read_u n c.read_bool.2).2)

/-- `ReadCursor::align_to_8_bits`: skip to the next byte boundary. -/
def ReadCursor.align_to_8_bits (c : ReadCursor) : ReadCursor :=
  ⟨c.bits.drop (padCount c.consumed), c.consumed + padCount c.consumed⟩

/-- The `Inner` composite of composite1.rs: three booleans and a 5-bit
field. -/
structure InnerV where
  a : Bool
  b : Bool
  c : Bool
  d : Nat
deriving DecidableEq

/-- The `Outer` composite of composite1.rs: a 13-bit field, a nested sealed
8-bit composite, and a 41-bit field. -/
structure OuterV where
  a : Nat
  inner : InnerV
  b : Nat
deriving DecidableEq

/-- `impl Serialize for Inner` (composite1.rs lines 39-50). -/
def InnerV.serialize (v : InnerV) (c : WriteCursor) : WriteCursor :=
  (((c.write_bool v.a).write_bool v.b).write_bool v.c).write_u 5 v.d

/-- `write_composite` on the sealed `Inner` (spec section 4.2): align,
delegate, align. -/
def writeCompositeInner (v : InnerV) (c : WriteCursor) : WriteCursor :=
  (InnerV.serialize v c.align_to_8_bits).align_to_8_bits

/-- `impl Serialize for Outer` (composite1.rs lines 83-97): `write_u13`,
align, `write_composite`, align, `write_u41`. -/
def OuterV.serialize (v : OuterV) (c : WriteCursor) : WriteCursor :=
  ((writeCompositeInner v.inner
      ((c.write_u 13 v.a).align_to_8_bits)).align_to_8_bits).write_u 41 v.b

/-- `serialize_to_bytes` into a zeroed buffer of
`size_bits / 8 = 72 / 8 = 9` bytes. -/
def OuterV.serialize_to_bytes (v : OuterV) : List Nat :=
  bitsToBytes (OuterV.serialize v ⟨[]⟩).bits

/-- `impl Deserialize for Inner` (composite1.rs lines 52-81). -/
def InnerV.deserialize (c : ReadCursor) : InnerV × ReadCursor :=
  (⟨c.read_bool.1,
    c.read_bool.2.read_bool.1,
    c.read_bool.2.read_bool.2.read_bool.1,
    (ReadCursor.read_u 5 c.read_bool.2.read_bool.2.read_bool.2).1⟩,
   (ReadCursor.read_u 5 c.read_bool.2.read_bool.2.read_bool.2).2)

/-- `read_composite` on the sealed `Inner` (spec section 4.2): align, then
delegate (no extent bound for a sealed type). -/
def readCompositeInner (c : ReadCursor) : InnerV × ReadCursor :=
  InnerV.deserialize c.align_to_8_bits

/-- `impl Deserialize for Outer` (composite1.rs lines 99-133): `read_u13`,
align, `read_composite`, align, `read_u41`. -/
def OuterV.deserialize (c : ReadCursor) : OuterV × ReadCursor :=
  (⟨(ReadCursor.read_u 13 c).1,
    (readCompositeInner (ReadCursor.read_u 13 c).2.align_to_8_bits).1,
    (ReadCursor.read_u 41
      (readCompositeInner
        (ReadCursor.read_u 13 c).2.align_to_8_bits).2.align_to_8_bits).1⟩,
   (ReadCursor.read_u 41
     (readCompositeInner
       (ReadCursor.read_u 13 c).2.align_to_8_bits).2.align_to_8_bits).2)

/-- `Outer::deserialize_from_bytes`. -/
def OuterV.deserialize_from_bytes (bytes : List Nat) : OuterV :=
  (OuterV.deserialize ⟨bytesToBits bytes, 0⟩).1

/-! ## Theorems -/

/-- The assertions of the unit test `u48_wrapping_sub` in u48.rs hold of the
embedding. -/
theorem u48_wrapping_sub_test_vectors :
    u48_wrapping_sub 0 1 = 0xffffffffffff ∧
    u48_wrapping_sub 0 0x10 = 0xfffffffffff0 := by decide

/-- The assertions of the unit test `instant_u48_compare` in u48.rs hold of the
embedding (validating the modelled `overflow_safe_compare`). -/
theorem instant_u48_compare_test_vectors :
    overflow_safe_compare 0 0 = Ordering.eq ∧
    overflow_safe_compare 127 127 = Ordering.eq ∧
    overflow_safe_compare 255 255 = Ordering.eq ∧
    overflow_safe_compare 0xffffffffffff 0xffffffffffff = Ordering.eq ∧
    overflow_safe_compare 0 10 = Ordering.lt ∧
    overflow_safe_compare 0 0xfffffe = Ordering.lt ∧
    overflow_safe_compare 0 0xffffff = Ordering.lt ∧
    overflow_safe_compare 0 0x7ffffffffffe = Ordering.lt ∧
    overflow_safe_compare 0 0x7fffffffffff = Ordering.lt ∧
    overflow_safe_compare 0 0x800000000000 = Ordering.gt ∧
    overflow_safe_compare 0 0x800000000001 = Ordering.gt ∧
    overflow_safe_compare 0 0xffffffffffff = Ordering.gt := by decide

/-- The assertions of the unit test `duration_u48` in u48.rs hold of the
embedding (validating the modelled `duration_since`). -/
theorem duration_u48_test_vectors :
    duration_since 0 0 = 0 ∧
    duration_since 1 0 = 1 ∧
    duration_since 0xffffffffffff 0 = 0xffffffffffff ∧
    duration_since 0 0xffffffffffff = 1 ∧
    duration_since 1 0xffffffffffff = 2 ∧
    duration_since 0xfffffffffffe 0xffffffffffff = 0xffffffffffff := by
  decide

/-- C2: the claim predicts Less whenever the modular difference `d` is at least
`2^47`, "including exactly d == 2^47"; but at `a = 0`, `b = 2^47` (where
`d = (a - b) mod 2^48 = 2^47`) the code returns Greater, as its own unit test
`instant_u48_compare` asserts (`compare(0, 0x800000000000) == Greater`). -/
theorem c2_compare_counterexample :
    u48_wrapping_sub 0 (2 ^ 47) = 2 ^ 47 ∧
    overflow_safe_compare 0 (2 ^ 47) = Ordering.gt ∧
    Ordering.gt ≠ Ordering.lt := by decide

/-- C2 (amended): for 48-bit instants `a` and `b` with `d = (a - b) mod 2^48`,
`overflow_safe_compare` returns Equal iff `a = b` (iff `d = 0`), Greater when
`0 < d ≤ 2^47` (the boundary `d = 2^47` included), and Less when `d > 2^47`;
when the distance is below `2^47` the result agrees with ordinary integer
comparison of the tick values. -/
theorem c2_compare_amended (a b : Nat) (ha : a < 2 ^ 48) (hb : b < 2 ^ 48) :
    (overflow_safe_compare a b = Ordering.eq ↔ a = b)
    ∧ (u48_wrapping_sub a b = 0 → overflow_safe_compare a b = Ordering.eq)
    ∧ (0 < u48_wrapping_sub a b → u48_wrapping_sub a b ≤ 2 ^ 47 →
        overflow_safe_compare a b = Ordering.gt)
    ∧ (2 ^ 47 < u48_wrapping_sub a b → overflow_safe_compare a b = Ordering.lt)
    ∧ (b < a → a - b < 2 ^ 47 → overflow_safe_compare a b = Ordering.gt)
    ∧ (a < b → b - a < 2 ^ 47 → overflow_safe_compare a b = Ordering.lt) := by
  have hd : u48_wrapping_sub a b = (a + 2 ^ 48 - b) % 2 ^ 48 := by
    unfold u48_wrapping_sub u64_wrapping_sub
    omega
  have hcmp : overflow_safe_compare a b =
      (if u48_wrapping_sub a b = 0 then Ordering.eq
       else if u48_wrapping_sub a b ≤ 2 ^ 47 then Ordering.gt
       else Ordering.lt) := rfl
  rw [hcmp, hd]
  have h0 : (a + 2 ^ 48 - b) % 2 ^ 48 = 0 ↔ a = b := by omega
  refine ⟨?_, ?_, ?_, ?_, ?_, ?_⟩
  · constructor
    · intro h
      by_cases hz : (a + 2 ^ 48 - b) % 2 ^ 48 = 0
      · exact h0.mp hz
      · rw [if_neg hz] at h
        split at h <;> simp_all
    · intro h
      rw [if_pos (h0.mpr h)]
  · intro h
    rw [if_pos h]
  · intro h1 h2
    rw [if_neg (by omega), if_pos h2]
  · intro h1
    rw [if_neg (by omega), if_neg (by omega)]
  · intro h1 h2
    have hgt : 0 < (a + 2 ^ 48 - b) % 2 ^ 48 ∧ (a + 2 ^ 48 - b) % 2 ^ 48 ≤ 2 ^ 47 := by
      omega
    rw [if_neg (by omega), if_pos hgt.2]
  · intro h1 h2
    rw [if_neg (by omega), if_neg (by omega)]

/-- Concrete instance of the amended C2 theorem. -/
theorem c2_compare_amended_witness :
    overflow_safe_compare 100 3 = Ordering.gt ∧
    overflow_safe_compare 3 100 = Ordering.lt ∧
    (overflow_safe_compare 5 5 = Ordering.eq ↔ (5 : Nat) = 5) := by
  refine ⟨?_, ?_, ?_⟩
  · exact (c2_compare_amended 100 3 (by norm_num) (by norm_num)).2.2.2.2.1
      (by norm_num) (by norm_num)
  · exact (c2_compare_amended 3 100 (by norm_num) (by norm_num)).2.2.2.2.2
      (by norm_num) (by norm_num)
  · exact (c2_compare_amended 5 5 (by norm_num) (by norm_num)).1

/-- C8: for 48-bit instants, `later.duration_since(earlier)` is exactly the
modular difference `(later - earlier) mod 2^48`: it is below `2^48`, adding it
to `earlier` modulo `2^48` recovers `later`, and it is the unique (hence
smallest) such non-negative delta; in particular the duration from
`0xffffffffffff` to `0` is `1`. -/
theorem c8_duration_since (later earlier : Nat)
    (h1 : later < 2 ^ 48) (h2 : earlier < 2 ^ 48) :
    duration_since later earlier = (later + 2 ^ 48 - earlier) % 2 ^ 48
    ∧ duration_since later earlier < 2 ^ 48
    ∧ (earlier + duration_since later earlier) % 2 ^ 48 = later
    ∧ (∀ d, d < 2 ^ 48 → (earlier + d) % 2 ^ 48 = later →
        d = duration_since later earlier)
    ∧ duration_since 0 0xffffffffffff = 1 := by
  unfold duration_since u48_wrapping_sub u64_wrapping_sub
  refine ⟨by omega, by omega, by omega, ?_, by decide⟩
  intro d hd hsum
  omega

/-- Concrete instance of the C8 theorem. -/
theorem c8_duration_since_witness :
    duration_since 5 3 = (5 + 2 ^ 48 - 3) % 2 ^ 48 :=
  (c8_duration_since 5 3 (by norm_num) (by norm_num)).1

/-- C10: every `U48` operation of the public interface yields a value whose 16
most significant bits are zero (the inner u64 is below `2^48`), under
release-mode wrapping semantics; `TryFrom<u64>` succeeds exactly on inputs
below `2^48`. -/
theorem c10_u48_invariant (a b rhs v : Nat)
    (ha : a < 2 ^ 48) (_hb : b < 2 ^ 48) :
    U48_MIN < 2 ^ 48
    ∧ U48_MAX < 2 ^ 48
    ∧ (v < 2 ^ 32 → u48_from_u32 v < 2 ^ 48)
    ∧ u48_wrapping_add a b < 2 ^ 48
    ∧ u48_wrapping_sub a b < 2 ^ 48
    ∧ u48_add_release a b < 2 ^ 48
    ∧ u48_sub_release a b < 2 ^ 48
    ∧ u48_mul_release a rhs < 2 ^ 48
    ∧ u48_div a rhs < 2 ^ 48
    ∧ u48_shr a rhs < 2 ^ 48
    ∧ u48_rem a rhs < 2 ^ 48
    ∧ (∀ u, u48_try_from_u64 v = some u → u < 2 ^ 48)
    ∧ (u48_try_from_u64 v = none ↔ 2 ^ 48 ≤ v) := by
  refine ⟨by decide, by decide, ?_, ?_, ?_, ?_, ?_, ?_, ?_, ?_, ?_, ?_, ?_⟩
  · intro hv
    unfold u48_from_u32
    omega
  · unfold u48_wrapping_add; omega
  · unfold u48_wrapping_sub u64_wrapping_sub; omega
  · unfold u48_add_release; omega
  · unfold u48_sub_release u64_wrapping_sub; omega
  · unfold u48_mul_release; omega
  · exact lt_of_le_of_lt (Nat.div_le_self a rhs) ha
  · exact lt_of_le_of_lt (Nat.div_le_self a _) ha
  · exact lt_of_le_of_lt (Nat.mod_le a rhs) ha
  · intro u hu
    unfold u48_try_from_u64 at hu
    split at hu
    · cases hu; omega
    · cases hu
  · unfold u48_try_from_u64
    split <;> simp_all

/-- Concrete instance of the C10 theorem. -/
theorem c10_u48_invariant_witness :
    u48_wrapping_add 7 9 < 2 ^ 48 ∧ (u48_try_from_u64 3 = none ↔ 2 ^ 48 ≤ 3) :=
  ⟨(c10_u48_invariant 7 9 2 3 (by norm_num) (by norm_num)).2.2.2.1,
   (c10_u48_invariant 7 9 2 3 (by norm_num) (by norm_num)).2.2.2.2.2.2.2.2.2.2.2.2⟩

/-- C1: the claim asserts that a `send_payload` call failing with `OutOfMemory`
leaves `next_transfer_id` unchanged; but with a full queue (capacity 0) the
call fails while `next_transfer_id` moves from 0 to 1, because publisher.rs
increments it before pushing. -/
theorem c1_publish_oom_counterexample :
    (send_payload ⟨0, 5, 2, 9⟩ 7 [1, 2, 3] 100 ⟨8, 0, [], []⟩).1 = false
    ∧ (send_payload ⟨0, 5, 2, 9⟩ 7 [1, 2, 3] 100 ⟨8, 0, [], []⟩).2.1.next_transfer_id = 1
    ∧ (1 : Nat) ≠ 0 := by decide

/-- C1 (amended): if `send_payload` (hence `publish`) fails with `OutOfMemory`,
no frames are enqueued and the transmitter is completely unchanged, but the
publisher's `next_transfer_id` is nevertheless advanced by one modulo 32,
because the increment precedes the failed push. -/
theorem c1_publish_oom_amended (pub : Publisher) (subject deadline : Nat)
    (payload : List Nat) (tx : Transmitter)
    (hfail : (send_payload pub subject payload deadline tx).1 = false) :
    (send_payload pub subject payload deadline tx).2.2 = tx
    ∧ (send_payload pub subject payload deadline tx).2.1.next_transfer_id
        = (pub.next_transfer_id + 1) % 32
    ∧ (send_payload pub subject payload deadline tx).2.1.timeout = pub.timeout
    ∧ (send_payload pub subject payload deadline tx).2.1.priority = pub.priority
    ∧ (send_payload pub subject payload deadline tx).2.1.source = pub.source := by
  rcases h : transmitter_push tx
      { header := { timestamp := deadline, transfer_id := pub.next_transfer_id,
                    priority := pub.priority, subject := subject,
                    source := some pub.source },
        payload := payload } with _ | tx'
  · simp [send_payload, h, transferId_increment]
  · simp [send_payload, h] at hfail

/-- Concrete instance of the amended C1 theorem. -/
theorem c1_publish_oom_amended_witness :
    (send_payload ⟨0, 5, 2, 9⟩ 7 [1, 2, 3] 100 ⟨8, 0, [], []⟩).2.2 = ⟨8, 0, [], []⟩ :=
  (c1_publish_oom_amended ⟨0, 5, 2, 9⟩ 7 100 [1, 2, 3] ⟨8, 0, [], []⟩ (by decide)).1

/-- C7: a successful `publish(now, subject, payload)` pushes exactly one
transfer, whose header carries timestamp `now + timeout` (the deadline,
modular at the 48-bit width), the publisher's `next_transfer_id` at entry,
and the stored priority and source; afterwards `next_transfer_id` equals its
previous value plus one modulo 32. -/
theorem c7_publish_success (pub : Publisher) (now subject : Nat)
    (payload : List Nat) (tx : Transmitter)
    (hok : (publish pub now subject payload tx).1 = true) :
    (publish pub now subject payload tx).2.2.pushed
      = tx.pushed ++
        [{ header := { timestamp := (pub.timeout + now) % 2 ^ 48,
                       transfer_id := pub.next_transfer_id,
                       priority := pub.priority, subject := subject,
                       source := some pub.source },
           payload := payload }]
    ∧ (publish pub now subject payload tx).2.1.next_transfer_id
        = (pub.next_transfer_id + 1) % 32 := by
  rcases h : transmitter_push tx
      { header := { timestamp := (pub.timeout + now) % 2 ^ 48,
                    transfer_id := pub.next_transfer_id,
                    priority := pub.priority, subject := subject,
                    source := some pub.source },
        payload := payload } with _ | tx'
  · simp only [publish, send_payload, duration_add_instant, h] at hok
    cases hok
  · have hp : tx'.pushed
        = tx.pushed ++
          [{ header := { timestamp := (pub.timeout + now) % 2 ^ 48,
                         transfer_id := pub.next_transfer_id,
                         priority := pub.priority, subject := subject,
                         source := some pub.source },
             payload := payload }] := by
      simp only [transmitter_push] at h
      split at h
      · cases h
        rfl
      · cases h
    simp only [publish, send_payload, duration_add_instant, h, transferId_increment]
    exact ⟨hp, trivial⟩

/-- Concrete instance of the C7 theorem. -/
theorem c7_publish_success_witness :
    (publish ⟨0, 5, 2, 9⟩ 20 7 [1, 2, 3] ⟨8, 4, [], []⟩).2.1.next_transfer_id
      = (0 + 1) % 32 :=
  (c7_publish_success ⟨0, 5, 2, 9⟩ 20 7 [1, 2, 3] ⟨8, 4, [], []⟩ (by decide)).2

/-- C9: converting a canadensis frame with a valid id and at most 8 data bytes
to a bxCAN frame and back (with any timestamp `t`) succeeds without panic or
`InvalidFrameFormat` and yields the same 29-bit id, the same data bytes and
timestamp `t`. -/
theorem c9_bxcan_roundtrip (validExtra : Nat → Bool) (f : CFrame) (t : Nat)
    (hlen : f.frameData.length ≤ 8) (hvalid : canid_valid validExtra f.id = true) :
    uavcan_frame_to_bxcan f = some ⟨BxId.extended f.id, some f.frameData⟩
    ∧ bxcan_frame_to_uavcan validExtra ⟨BxId.extended f.id, some f.frameData⟩ t
        = some ⟨t, f.id, f.frameData⟩ := by
  have hid : f.id < 2 ^ 29 := by
    unfold canid_valid at hvalid
    simp only [Bool.and_eq_true, decide_eq_true_eq] at hvalid
    exact hvalid.1
  constructor
  · unfold uavcan_frame_to_bxcan
    rw [if_pos ⟨hid, hlen⟩]
  · unfold bxcan_frame_to_uavcan
    simp [hvalid]

/-- Concrete instance of the C9 theorem. -/
theorem c9_bxcan_roundtrip_witness :
    uavcan_frame_to_bxcan ⟨44, 0x107d553, [1, 2, 3]⟩
        = some ⟨BxId.extended 0x107d553, some [1, 2, 3]⟩
    ∧ bxcan_frame_to_uavcan (fun _ => true) ⟨BxId.extended 0x107d553, some [1, 2, 3]⟩ 99
        = some ⟨99, 0x107d553, [1, 2, 3]⟩ :=
  c9_bxcan_roundtrip (fun _ => true) ⟨44, 0x107d553, [1, 2, 3]⟩ 99
    (by decide) (by decide)

/-- The receive loop equals feeding only the successfully converted frames to
`accept` (auxiliary to C5). -/
theorem receive_frames_eq_processAll {σ : Type} (validExtra : Nat → Bool)
    (accept : σ → CFrame → Option σ) :
    ∀ (events : List RxEvent) (clocks : List Nat) (s : σ),
      receive_frames validExtra accept events clocks s
        = processAll accept (decodedFrames validExtra events clocks) s := by
  intro events
  induction events with
  | nil =>
    intro clocks s
    rfl
  | cons e rest ih =>
    intro clocks s
    cases e with
    | overflow =>
      simpa [receive_frames, decodedFrames] using ih clocks s
    | frame bf =>
      rcases h : bxcan_frame_to_uavcan validExtra bf (clocks.headD 0) with _ | cf
      · simp only [receive_frames, decodedFrames, h]
        exact ih clocks.tail s
      · rcases ha : accept s cf with _ | s2
        · simp only [receive_frames, decodedFrames, h, ha, processAll]
        · simp only [receive_frames, decodedFrames, h, ha, processAll]
          exact ih clocks.tail s2

/-- C5: in `receive_frames`, every received frame with a standard id, an id
that is not a valid 29-bit CanId, or no data field fails conversion and is
dropped silently — the loop behaves exactly as if only the successfully
converted frames were passed to `accept_frame`, so no error surfaces for a
malformed frame, processing continues with the next frame, and only the
`OutOfMemory` of `accept_frame` propagates to the caller. -/
theorem c5_receive_malformed_dropped {σ : Type} (validExtra : Nat → Bool)
    (accept : σ → CFrame → Option σ) (events : List RxEvent)
    (clocks : List Nat) (s : σ) :
    receive_frames validExtra accept events clocks s
      = processAll accept (decodedFrames validExtra events clocks) s
    ∧ (∀ (bf : BxFrame) (t : Nat),
        ((∃ raw, bf.id = BxId.standard raw)
          ∨ bf.data = none
          ∨ (∀ raw, bf.id = BxId.extended raw → canid_valid validExtra raw = false)) →
        bxcan_frame_to_uavcan validExtra bf t = none) := by
  refine ⟨receive_frames_eq_processAll validExtra accept events clocks s, ?_⟩
  rintro ⟨bid, bdata⟩ t (⟨raw, hstd⟩ | hnodata | hbad)
  · cases hstd
    rfl
  · cases hnodata
    cases bid with
    | standard raw => rfl
    | extended raw => simp [bxcan_frame_to_uavcan]
  · cases bid with
    | standard raw => rfl
    | extended raw => simp [bxcan_frame_to_uavcan, hbad raw rfl]

/-- Concrete instance of the C5 theorem: a standard-id frame and a dataless
frame in the middle of the stream are dropped and the remaining frame is
accepted. -/
theorem c5_receive_malformed_dropped_witness :
    receive_frames (fun _ => true)
        (fun (s : Nat) cf => some (s + cf.frameData.length))
        [RxEvent.frame ⟨BxId.standard 5, some [1]⟩,
         RxEvent.frame ⟨BxId.extended 7, none⟩,
         RxEvent.overflow,
         RxEvent.frame ⟨BxId.extended 7, some [2, 3]⟩]
        [10, 11, 12] 0 = some 2
    ∧ bxcan_frame_to_uavcan (fun _ => true) ⟨BxId.standard 5, some [1]⟩ 10 = none := by
  have h := c5_receive_malformed_dropped (fun _ => true)
    (fun (s : Nat) cf => some (s + cf.frameData.length))
    [RxEvent.frame ⟨BxId.standard 5, some [1]⟩,
     RxEvent.frame ⟨BxId.extended 7, none⟩,
     RxEvent.overflow,
     RxEvent.frame ⟨BxId.extended 7, some [2, 3]⟩]
    [10, 11, 12] 0
  exact ⟨h.1.trans (by decide),
         h.2 ⟨BxId.standard 5, some [1]⟩ 10 (Or.inl ⟨5, rfl⟩)⟩

/-- `tracker_replace` returns the previously tracked deadline. -/
theorem tracker_replace_fst (t : DeadlineTracker) (mb : BxMailbox) (v : Nat) :
    (tracker_replace t mb v).1 = tracker_get t mb := by
  cases mb <;> rfl

/-- A successful `bxcan_frame_to_uavcan` stamps the supplied timestamp on the
resulting frame. -/
theorem bxcan_frame_to_uavcan_timestamp (validExtra : Nat → Bool) (f : BxFrame)
    (t : Nat) (cf : CFrame) (h : bxcan_frame_to_uavcan validExtra f t = some cf) :
    cf.timestamp = t := by
  rcases f with ⟨bid, bdata⟩
  cases bid with
  | standard raw => cases h
  | extended raw =>
    simp only [bxcan_frame_to_uavcan] at h
    split at h
    · cases bdata with
      | none => cases h
      | some d =>
        cases h
        rfl
    · cases h

/-- C6: when `send_frame` meets a peripheral that reports WouldBlock, the
frame goes back into the outgoing queue through `return_frame` and WouldBlock
is reported to the caller; and when submitting a frame bumps a pending
lower-priority frame out of a mailbox, the bumped frame is reinserted into the
queue carrying the deadline previously tracked for that mailbox. -/
theorem c6_send_frame_requeue (validExtra : Nat → Bool) (st : TxState)
    (frame : CFrame) (bxf : BxFrame)
    (hconv : uavcan_frame_to_bxcan frame = some bxf) :
    ((bx_transmit st.can bxf).1 = TransmitOutcome.wouldBlock →
      st.queue.frames.length < st.queue.capacity →
      send_frame validExtra st frame
        = (SendOutcome.wouldBlock,
           { st with queue := { st.queue with
               frames := insert_return frame st.queue.frames } }))
    ∧ (∀ removed mb can2 d rf,
        bx_transmit st.can bxf = (TransmitOutcome.placed (some removed) mb, can2) →
        tracker_get st.deadlines mb = some d →
        bxcan_frame_to_uavcan validExtra removed d = some rf →
        st.queue.frames.length < st.queue.capacity →
        rf.timestamp = d
        ∧ send_frame validExtra st frame
            = (SendOutcome.ok,
               { queue := { st.queue with
                   frames := insert_return rf st.queue.frames },
                 can := can2,
                 deadlines := (tracker_replace st.deadlines mb frame.timestamp).2 })) := by
  constructor
  · intro hwb hroom
    rcases htx : bx_transmit st.can bxf with ⟨out, can2⟩
    rw [htx] at hwb
    dsimp only at hwb
    subst hwb
    simp only [send_frame, hconv, htx]
    unfold queue_return_or_keep queue_return
    rw [if_pos hroom]
    rfl
  · intro removed mb can2 d rf htx hd hrf hroom
    refine ⟨bxcan_frame_to_uavcan_timestamp validExtra removed d rf hrf, ?_⟩
    simp only [send_frame, hconv, htx, tracker_replace_fst, hd, hrf]
    unfold queue_return_or_keep queue_return
    rw [if_pos hroom]
    rfl

/-- Concrete instance of the C6 theorem: a full peripheral with only
higher-priority frames makes `send_frame` requeue the frame and report
WouldBlock; a full peripheral with a lower-priority frame in mailbox 2 bumps
that frame back into the queue with its tracked deadline 99. -/
theorem c6_send_frame_requeue_witness :
    send_frame (fun _ => true)
        ⟨⟨[], 4⟩,
         ⟨some ⟨BxId.extended 1, some []⟩, some ⟨BxId.extended 2, some []⟩,
          some ⟨BxId.extended 3, some []⟩⟩,
         ⟨none, none, none⟩⟩
        ⟨50, 10, []⟩
      = (SendOutcome.wouldBlock,
         ⟨⟨[⟨50, 10, []⟩], 4⟩,
          ⟨some ⟨BxId.extended 1, some []⟩, some ⟨BxId.extended 2, some []⟩,
           some ⟨BxId.extended 3, some []⟩⟩,
          ⟨none, none, none⟩⟩)
    ∧ send_frame (fun _ => true)
        ⟨⟨[], 4⟩,
         ⟨some ⟨BxId.extended 5, some []⟩, some ⟨BxId.extended 6, some []⟩,
          some ⟨BxId.extended 7, some [9]⟩⟩,
         ⟨none, none, some 99⟩⟩
        ⟨50, 1, []⟩
      = (SendOutcome.ok,
         ⟨⟨[⟨99, 7, [9]⟩], 4⟩,
          ⟨some ⟨BxId.extended 5, some []⟩, some ⟨BxId.extended 6, some []⟩,
           some ⟨BxId.extended 1, some []⟩⟩,
          ⟨none, none, some 50⟩⟩) := by
  constructor
  · have h := (c6_send_frame_requeue (fun _ => true)
      ⟨⟨[], 4⟩,
       ⟨some ⟨BxId.extended 1, some []⟩, some ⟨BxId.extended 2, some []⟩,
        some ⟨BxId.extended 3, some []⟩⟩,
       ⟨none, none, none⟩⟩
      ⟨50, 10, []⟩ ⟨BxId.extended 10, some []⟩ (by decide)).1 (by decide) (by decide)
    exact h.trans (by decide)
  · have h := (c6_send_frame_requeue (fun _ => true)
      ⟨⟨[], 4⟩,
       ⟨some ⟨BxId.extended 5, some []⟩, some ⟨BxId.extended 6, some []⟩,
        some ⟨BxId.extended 7, some [9]⟩⟩,
       ⟨none, none, some 99⟩⟩
      ⟨50, 1, []⟩ ⟨BxId.extended 1, some []⟩ (by decide)).2
      ⟨BxId.extended 7, some [9]⟩ BxMailbox.mb2
      ⟨some ⟨BxId.extended 5, some []⟩, some ⟨BxId.extended 6, some []⟩,
       some ⟨BxId.extended 1, some []⟩⟩
      99 ⟨99, 7, [9]⟩ (by decide) (by decide) (by decide) (by decide)
    exact h.2.trans (by decide)

/-- Any frame pending after `bx_transmit` was pending before or is the
submitted frame (auxiliary to C3). -/
theorem bx_transmit_mailboxes (can : BxCan) (f bf : BxFrame)
    (h : inMailboxes (bx_transmit can f).2 bf) :
    inMailboxes can bf ∨ bf = f := by
  rcases can with ⟨m0, m1, m2⟩
  rcases m0 with _ | g0 <;> rcases m1 with _ | g1 <;> rcases m2 with _ | g2 <;>
      simp only [bx_transmit, inMailboxes] at h ⊢ <;>
      (try split_ifs at h) <;>
      simp_all <;>
      tauto

/-- When `send_frame` reports WouldBlock the mailboxes are untouched
(auxiliary to C3). -/
theorem send_frame_wouldBlock_can (validExtra : Nat → Bool) (st : TxState)
    (frame : CFrame)
    (h : (send_frame validExtra st frame).1 = SendOutcome.wouldBlock) :
    (send_frame validExtra st frame).2.can = st.can := by
  rcases hc : uavcan_frame_to_bxcan frame with _ | bxf
  · simp [send_frame, hc]
  · rcases htx : bx_transmit st.can bxf with ⟨out, can2⟩
    cases out with
    | wouldBlock => simp [send_frame, hc, htx]
    | placed removed mb =>
      cases removed with
      | none => simp [send_frame, hc, htx] at h
      | some r =>
        rcases hr : (tracker_replace st.deadlines mb frame.timestamp).1 with _ | dl
        · simp [send_frame, hc, htx, hr]
        · rcases hcv : bxcan_frame_to_uavcan validExtra r dl with _ | rf
          · simp [send_frame, hc, htx, hr, hcv]
          · simp [send_frame, hc, htx, hr, hcv] at h

/-- A panic inside `send_frame` aborts with the entry state (auxiliary to
C3). -/
theorem send_frame_panicked_eq (validExtra : Nat → Bool) (st : TxState)
    (frame : CFrame)
    (h : (send_frame validExtra st frame).1 = SendOutcome.panicked) :
    (send_frame validExtra st frame).2 = st := by
  rcases hc : uavcan_frame_to_bxcan frame with _ | bxf
  · simp [send_frame, hc]
  · rcases htx : bx_transmit st.can bxf with ⟨out, can2⟩
    cases out with
    | wouldBlock => simp [send_frame, hc, htx] at h
    | placed removed mb =>
      cases removed with
      | none => simp [send_frame, hc, htx] at h
      | some r =>
        rcases hr : (tracker_replace st.deadlines mb frame.timestamp).1 with _ | dl
        · simp [send_frame, hc, htx, hr]
        · rcases hcv : bxcan_frame_to_uavcan validExtra r dl with _ | rf
          · simp [send_frame, hc, htx, hr, hcv]
          · simp [send_frame, hc, htx, hr, hcv] at h

/-- Any frame pending after `send_frame` was pending before or is the bxCAN
conversion of the submitted frame (auxiliary to C3). -/
theorem send_frame_mailboxes (validExtra : Nat → Bool) (st : TxState)
    (frame : CFrame) (bf : BxFrame)
    (h : inMailboxes (send_frame validExtra st frame).2.can bf) :
    inMailboxes st.can bf ∨ uavcan_frame_to_bxcan frame = some bf := by
  rcases hc : uavcan_frame_to_bxcan frame with _ | bxf
  · simp only [send_frame, hc] at h
    exact Or.inl h
  · rcases htx : bx_transmit st.can bxf with ⟨out, can2⟩
    have hcan2 : inMailboxes can2 bf → inMailboxes st.can bf ∨ bf = bxf := by
      intro hin
      exact bx_transmit_mailboxes st.can bxf bf (by rw [htx]; exact hin)
    cases out with
    | wouldBlock =>
      simp only [send_frame, hc, htx] at h
      exact Or.inl h
    | placed removed mb =>
      cases removed with
      | none =>
        simp only [send_frame, hc, htx] at h
        rcases hcan2 h with h1 | h1
        · exact Or.inl h1
        · subst h1
          exact Or.inr rfl
      | some r =>
        rcases hr : (tracker_replace st.deadlines mb frame.timestamp).1 with _ | dl
        · simp only [send_frame, hc, htx, hr] at h
          exact Or.inl h
        · rcases hcv : bxcan_frame_to_uavcan validExtra r dl with _ | rf
          · simp only [send_frame, hc, htx, hr, hcv] at h
            exact Or.inl h
          · simp only [send_frame, hc, htx, hr, hcv] at h
            rcases hcan2 h with h1 | h1
            · exact Or.inl h1
            · subst h1
              exact Or.inr rfl

/-- `clean_mailbox` can only keep or empty a slot (auxiliary to C3). -/
theorem clean_mailbox_some (deadlines : DeadlineTracker) (now : Nat)
    (mb : BxMailbox) (slot : Option BxFrame) (bf : BxFrame)
    (h : clean_mailbox deadlines now mb slot = some bf) : slot = some bf := by
  rcases hg : tracker_get deadlines mb with _ | d <;>
      simp only [clean_mailbox, hg] at h
  · exact h
  · split at h
    · cases h
    · exact h

/-- `clean_expired_frames` only removes frames from mailboxes (auxiliary to
C3). -/
theorem clean_expired_mailboxes (deadlines : DeadlineTracker) (can : BxCan)
    (now : Nat) (bf : BxFrame)
    (h : inMailboxes (clean_expired_frames deadlines can now) bf) :
    inMailboxes can bf := by
  unfold inMailboxes at h ⊢
  rcases h with h | h | h
  · exact Or.inl (clean_mailbox_some _ _ _ _ _ h)
  · exact Or.inr (Or.inl (clean_mailbox_some _ _ _ _ _ h))
  · exact Or.inr (Or.inr (clean_mailbox_some _ _ _ _ _ h))

/-- Shape of one loop step on an empty queue (auxiliary to C3). -/
theorem send_frames_go_empty (validExtra : Nat → Bool) (now n : Nat)
    (st : TxState) (hq : queue_pop st.queue = none) :
    send_frames_go validExtra now (n + 1) st = (LoopResult.ok, st, []) := by
  simp only [send_frames_go, hq]

/-- Shape of one loop step on an expired frame (auxiliary to C3). -/
theorem send_frames_go_lt (validExtra : Nat → Bool) (now n : Nat)
    (st : TxState) (f : CFrame) (q2 : OutQueue)
    (hq : queue_pop st.queue = some (f, q2))
    (hcmp : overflow_safe_compare f.timestamp now = Ordering.lt) :
    send_frames_go validExtra now (n + 1) st
      = ((send_frames_go validExtra now n { st with queue := q2 }).1,
         (send_frames_go validExtra now n { st with queue := q2 }).2.1,
         TxEvent.dropped f
           :: (send_frames_go validExtra now n { st with queue := q2 }).2.2) := by
  simp only [send_frames_go, hq, hcmp]

/-- Shape of one loop step on a live frame that is placed (auxiliary to C3). -/
theorem send_frames_go_ok (validExtra : Nat → Bool) (now n : Nat)
    (st : TxState) (f : CFrame) (q2 : OutQueue) (st2 : TxState)
    (hq : queue_pop st.queue = some (f, q2))
    (hcmp : overflow_safe_compare f.timestamp now = Ordering.gt
      ∨ overflow_safe_compare f.timestamp now = Ordering.eq)
    (hsf : send_frame validExtra { st with queue := q2 } f = (SendOutcome.ok, st2)) :
    send_frames_go validExtra now (n + 1) st
      = ((send_frames_go validExtra now n st2).1,
         (send_frames_go validExtra now n st2).2.1,
         TxEvent.sent f :: (send_frames_go validExtra now n st2).2.2) := by
  rcases hcmp with hcmp | hcmp <;> simp only [send_frames_go, hq, hcmp, hsf]

/-- Shape of one loop step on a live frame that meets a full peripheral
(auxiliary to C3). -/
theorem send_frames_go_blocked (validExtra : Nat → Bool) (now n : Nat)
    (st : TxState) (f : CFrame) (q2 : OutQueue) (st2 : TxState)
    (hq : queue_pop st.queue = some (f, q2))
    (hcmp : overflow_safe_compare f.timestamp now = Ordering.gt
      ∨ overflow_safe_compare f.timestamp now = Ordering.eq)
    (hsf : send_frame validExtra { st with queue := q2 } f
      = (SendOutcome.wouldBlock, st2)) :
    send_frames_go validExtra now (n + 1) st
      = (LoopResult.wouldBlock, st2, [TxEvent.blocked f]) := by
  rcases hcmp with hcmp | hcmp <;> simp only [send_frames_go, hq, hcmp, hsf]

/-- Shape of one loop step on a live frame whose submission panics (auxiliary
to C3). -/
theorem send_frames_go_panicked (validExtra : Nat → Bool) (now n : Nat)
    (st : TxState) (f : CFrame) (q2 : OutQueue) (st2 : TxState)
    (hq : queue_pop st.queue = some (f, q2))
    (hcmp : overflow_safe_compare f.timestamp now = Ordering.gt
      ∨ overflow_safe_compare f.timestamp now = Ordering.eq)
    (hsf : send_frame validExtra { st with queue := q2 } f
      = (SendOutcome.panicked, st2)) :
    send_frames_go validExtra now (n + 1) st
      = (LoopResult.panicked, st2, []) := by
  rcases hcmp with hcmp | hcmp <;> simp only [send_frames_go, hq, hcmp, hsf]

/-- Invariants of the `send_frames` loop (auxiliary to C3): dropped frames are
exactly those logged expired, frames reaching `send_frame` are live, the
mailboxes only gain conversions of live sent frames, and WouldBlock only
arises from a live blocked frame. -/
theorem send_frames_go_spec (validExtra : Nat → Bool) (now : Nat) :
    ∀ (fuel : Nat) (st : TxState),
      (∀ f, TxEvent.dropped f ∈ (send_frames_go validExtra now fuel st).2.2 →
          overflow_safe_compare f.timestamp now = Ordering.lt)
      ∧ (∀ f, TxEvent.sent f ∈ (send_frames_go validExtra now fuel st).2.2 →
          overflow_safe_compare f.timestamp now ≠ Ordering.lt)
      ∧ (∀ f, TxEvent.blocked f ∈ (send_frames_go validExtra now fuel st).2.2 →
          overflow_safe_compare f.timestamp now ≠ Ordering.lt)
      ∧ (∀ bf, inMailboxes (send_frames_go validExtra now fuel st).2.1.can bf →
          inMailboxes st.can bf
          ∨ ∃ f, TxEvent.sent f ∈ (send_frames_go validExtra now fuel st).2.2
              ∧ uavcan_frame_to_bxcan f = some bf)
      ∧ ((send_frames_go validExtra now fuel st).1 = LoopResult.wouldBlock →
          ∃ f, TxEvent.blocked f ∈ (send_frames_go validExtra now fuel st).2.2) := by
  intro fuel
  induction fuel with
  | zero =>
    intro st
    refine ⟨?_, ?_, ?_, ?_, ?_⟩ <;> simp [send_frames_go]
  | succ n ih =>
    intro st
    rcases hq : queue_pop st.queue with _ | ⟨f, q2⟩
    · rw [send_frames_go_empty validExtra now n st hq]
      refine ⟨?_, ?_, ?_, ?_, ?_⟩ <;> simp
    · by_cases hlt : overflow_safe_compare f.timestamp now = Ordering.lt
      · rw [send_frames_go_lt validExtra now n st f q2 hq hlt]
        obtain ⟨ih1, ih2, ih3, ih4, ih5⟩ := ih { st with queue := q2 }
        refine ⟨?_, ?_, ?_, ?_, ?_⟩
        · intro g hg
          rcases List.mem_cons.mp hg with hg | hg
          · cases hg
            exact hlt
          · exact ih1 g hg
        · intro g hg
          rcases List.mem_cons.mp hg with hg | hg
          · cases hg
          · exact ih2 g hg
        · intro g hg
          rcases List.mem_cons.mp hg with hg | hg
          · cases hg
          · exact ih3 g hg
        · intro bf hbf
          rcases ih4 bf hbf with h1 | ⟨g, hg, hgc⟩
          · exact Or.inl h1
          · exact Or.inr ⟨g, List.mem_cons_of_mem _ hg, hgc⟩
        · intro hr
          rcases ih5 hr with ⟨g, hg⟩
          exact ⟨g, List.mem_cons_of_mem _ hg⟩
      · have hcmp : overflow_safe_compare f.timestamp now = Ordering.gt
            ∨ overflow_safe_compare f.timestamp now = Ordering.eq := by
          cases h : overflow_safe_compare f.timestamp now <;> simp_all
        rcases hsf : send_frame validExtra { st with queue := q2 } f with ⟨out, st2⟩
        cases out with
        | ok =>
          rw [send_frames_go_ok validExtra now n st f q2 st2 hq hcmp hsf]
          obtain ⟨ih1, ih2, ih3, ih4, ih5⟩ := ih st2
          refine ⟨?_, ?_, ?_, ?_, ?_⟩
          · intro g hg
            rcases List.mem_cons.mp hg with hg | hg
            · cases hg
            · exact ih1 g hg
          · intro g hg
            rcases List.mem_cons.mp hg with hg | hg
            · cases hg
              exact hlt
            · exact ih2 g hg
          · intro g hg
            rcases List.mem_cons.mp hg with hg | hg
            · cases hg
            · exact ih3 g hg
          · intro bf hbf
            rcases ih4 bf hbf with h1 | ⟨g, hg, hgc⟩
            · have h2 := send_frame_mailboxes validExtra { st with queue := q2 } f bf
                (by rw [hsf]; exact h1)
              rcases h2 with h2 | h2
              · exact Or.inl h2
              · exact Or.inr ⟨f, List.mem_cons_self _ _, h2⟩
            · exact Or.inr ⟨g, List.mem_cons_of_mem _ hg, hgc⟩
          · intro hr
            rcases ih5 hr with ⟨g, hg⟩
            exact ⟨g, List.mem_cons_of_mem _ hg⟩
        | wouldBlock =>
          rw [send_frames_go_blocked validExtra now n st f q2 st2 hq hcmp hsf]
          refine ⟨?_, ?_, ?_, ?_, ?_⟩
          · intro g hg
            simp at hg
          · intro g hg
            simp at hg
          · intro g hg
            simp only [List.mem_singleton] at hg
            cases hg
            exact hlt
          · intro bf hbf
            have hcan : st2.can = st.can := by
              have h2 := send_frame_wouldBlock_can validExtra
                { st with queue := q2 } f (by rw [hsf])
              rw [hsf] at h2
              exact h2
            exact Or.inl (hcan ▸ hbf)
          · intro _
            exact ⟨f, List.mem_singleton_self _⟩
        | panicked =>
          rw [send_frames_go_panicked validExtra now n st f q2 st2 hq hcmp hsf]
          refine ⟨?_, ?_, ?_, ?_, ?_⟩
          · intro g hg
            simp at hg
          · intro g hg
            simp at hg
          · intro g hg
            simp at hg
          · intro bf hbf
            have hst : st2 = { st with queue := q2 } := by
              have h2 := send_frame_panicked_eq validExtra
                { st with queue := q2 } f (by rw [hsf])
              rw [hsf] at h2
              exact h2
            rw [hst] at hbf
            exact Or.inl hbf
          · intro hr
            simp at hr

/-- C3: in `send_frames`, every popped frame whose deadline compares strictly
Less than `now` is logged dropped — and dropped frames are exactly the expired
ones: frames submitted to a mailbox (`sent`) or attempted and returned
(`blocked`) never compare Less; every mailbox frame after the call was already
pending or is the conversion of a `sent` (hence non-expired) frame, so a frame
whose deadline has strictly passed is never placed in a mailbox; and a
WouldBlock result only arises from a non-expired `blocked` frame, never from a
dropped one. -/
theorem c3_send_frames_deadline_drop (validExtra : Nat → Bool) (now fuel : Nat)
    (st : TxState) :
    (∀ f, TxEvent.dropped f ∈ (send_frames validExtra now fuel st).2.2 →
        overflow_safe_compare f.timestamp now = Ordering.lt)
    ∧ (∀ f, TxEvent.sent f ∈ (send_frames validExtra now fuel st).2.2 →
        overflow_safe_compare f.timestamp now ≠ Ordering.lt)
    ∧ (∀ f, TxEvent.blocked f ∈ (send_frames validExtra now fuel st).2.2 →
        overflow_safe_compare f.timestamp now ≠ Ordering.lt)
    ∧ (∀ bf, inMailboxes (send_frames validExtra now fuel st).2.1.can bf →
        inMailboxes st.can bf
        ∨ ∃ f, TxEvent.sent f ∈ (send_frames validExtra now fuel st).2.2
            ∧ overflow_safe_compare f.timestamp now ≠ Ordering.lt
            ∧ uavcan_frame_to_bxcan f = some bf)
    ∧ ((send_frames validExtra now fuel st).1 = LoopResult.wouldBlock →
        ∃ f, TxEvent.blocked f ∈ (send_frames validExtra now fuel st).2.2
          ∧ overflow_safe_compare f.timestamp now ≠ Ordering.lt) := by
  obtain ⟨h1, h2, h3, h4, h5⟩ := send_frames_go_spec validExtra now fuel
    { st with can := clean_expired_frames st.deadlines st.can now }
  refine ⟨h1, h2, h3, ?_, ?_⟩
  · intro bf hin
    rcases h4 bf hin with hold | ⟨f, hf, hc⟩
    · exact Or.inl (clean_expired_mailboxes st.deadlines st.can now bf hold)
    · exact Or.inr ⟨f, hf, h2 f hf, hc⟩
  · intro hr
    rcases h5 hr with ⟨f, hf⟩
    exact ⟨f, hf, h3 f hf⟩

/-- Concrete instance of the C3 theorem: with `now = 10`, the queued frame
with deadline 5 is dropped, and the C3 theorem certifies that its deadline
compares Less. -/
theorem c3_send_frames_deadline_drop_witness :
    overflow_safe_compare 5 10 = Ordering.lt :=
  (c3_send_frames_deadline_drop (fun _ => true) 10 3
      ⟨⟨[⟨5, 1, []⟩], 2⟩, ⟨none, none, none⟩, ⟨none, none, none⟩⟩).1
    ⟨5, 1, []⟩ (by decide)

/-- `natToBits` produces exactly `n` bits. -/
theorem natToBits_length (n : Nat) : ∀ v, (natToBits n v).length = n := by
  induction n with
  | zero =>
    intro v
    rfl
  | succ k ih =>
    intro v
    simp [natToBits, ih]

/-- The bits of zero are all clear. -/
theorem natToBits_zero (n : Nat) : natToBits n 0 = List.replicate n false := by
  induction n with
  | zero => rfl
  | succ k ih => simp [natToBits, ih, List.replicate_succ]

/-- Unpacking the value of a bit list recovers the list, zero-extended. -/
theorem natToBits_bitsToNat_append (l : List Bool) :
    ∀ k, natToBits (l.length + k) (bitsToNat l) = l ++ List.replicate k false := by
  induction l with
  | nil =>
    intro k
    simpa using natToBits_zero k
  | cons b rest ih =>
    intro k
    have h1 : (b :: rest).length + k = (rest.length + k) + 1 := by
      simp only [List.length_cons]
      omega
    have hb : (bitVal b + 2 * bitsToNat rest) % 2 = bitVal b := by
      cases b <;> simp only [bitVal] <;> omega
    have hd : (bitVal b + 2 * bitsToNat rest) / 2 = bitsToNat rest := by
      cases b <;> simp only [bitVal] <;> omega
    rw [h1]
    simp only [bitsToNat, natToBits, hb, hd, ih k]
    cases b <;> simp [bitVal]

/-- Unpacking the value of a bit list recovers the list. -/
theorem natToBits_bitsToNat (l : List Bool) :
    natToBits l.length (bitsToNat l) = l := by
  simpa using natToBits_bitsToNat_append l 0

/-- `bytesToBits` on a cons. -/
theorem bytesToBits_cons (v : Nat) (rest : List Nat) :
    bytesToBits (v :: rest) = natToBits 8 v ++ bytesToBits rest := by
  simp [bytesToBits, byteToBits]

/-- Unpacking a packed partial chunk recovers the bits plus padding
(auxiliary to C4). -/
theorem bytesToBits_single_chunk (l : List Bool) (h1 : 0 < l.length)
    (h2 : l.length ≤ 7) :
    bytesToBits [bitsToNat l] = l ++ List.replicate (padCount l.length) false := by
  have hk : l.length + padCount l.length = 8 := by
    unfold padCount
    omega
  have h := natToBits_bitsToNat_append l (padCount l.length)
  rw [hk] at h
  simp [bytesToBits_cons, h, bytesToBits, byteToBits]

/-- Unpacking the packed form of any bit stream recovers the stream followed
by the zero padding of the final byte (auxiliary to C4). -/
theorem bytesToBits_bitsToBytes : ∀ (n : Nat) (l : List Bool), l.length ≤ n →
    bytesToBits (bitsToBytes l) = l ++ List.replicate (padCount l.length) false := by
  intro n
  induction n with
  | zero =>
    intro l hl
    have h0 : l = [] := List.eq_nil_of_length_eq_zero (by omega)
    subst h0
    rfl
  | succ m ih =>
    intro l hl
    rcases l with _ | ⟨b0, _ | ⟨b1, _ | ⟨b2, _ | ⟨b3, _ | ⟨b4, _ | ⟨b5, _ | ⟨b6, _ | ⟨b7, rest⟩⟩⟩⟩⟩⟩⟩⟩
    · rfl
    · exact bytesToBits_single_chunk [b0] (by simp) (by simp)
    · exact bytesToBits_single_chunk [b0, b1] (by simp) (by simp)
    · exact bytesToBits_single_chunk [b0, b1, b2] (by simp) (by simp)
    · exact bytesToBits_single_chunk [b0, b1, b2, b3] (by simp) (by simp)
    · exact bytesToBits_single_chunk [b0, b1, b2, b3, b4] (by simp) (by simp)
    · exact bytesToBits_single_chunk [b0, b1, b2, b3, b4, b5] (by simp) (by simp)
    · exact bytesToBits_single_chunk [b0, b1, b2, b3, b4, b5, b6] (by simp) (by simp)
    · have hrest : rest.length ≤ m := by
        simp only [List.length_cons] at hl
        omega
      have ih8 := ih rest hrest
      have h8 : natToBits 8 (bitsToNat [b0, b1, b2, b3, b4, b5, b6, b7])
          = [b0, b1, b2, b3, b4, b5, b6, b7] :=
        natToBits_bitsToNat [b0, b1, b2, b3, b4, b5, b6, b7]
      have hp : padCount (b0 :: b1 :: b2 :: b3 :: b4 :: b5 :: b6 :: b7 :: rest).length
          = padCount rest.length := by
        simp only [List.length_cons]
        unfold padCount
        omega
      rw [show bitsToBytes (b0 :: b1 :: b2 :: b3 :: b4 :: b5 :: b6 :: b7 :: rest)
          = bitsToNat [b0, b1, b2, b3, b4, b5, b6, b7] :: bitsToBytes rest from rfl,
        bytesToBits_cons, h8, ih8, hp]
      simp

/-- Reading `n` bits written at the cursor position recovers the value
(auxiliary to C4). -/
theorem read_u_append (n : Nat) :
    ∀ (v : Nat) (s : List Bool) (k : Nat), v < 2 ^ n →
      ReadCursor.read_u n ⟨natToBits n v ++ s, k⟩ = (v, ⟨s, k + n⟩) := by
  induction n with
  | zero =>
    intro v s k hv
    have h0 : v = 0 := by omega
    subst h0
    simp [ReadCursor.read_u, natToBits]
  | succ m ih =>
    intro v s k hv
    have hv2 : v / 2 < 2 ^ m := by
      rw [pow_succ] at hv
      omega
    have hb : bitVal (decide (v % 2 = 1)) = v % 2 := by
      rcases Nat.mod_two_eq_zero_or_one v with h | h <;> simp [h, bitVal]
    simp only [natToBits, List.cons_append, ReadCursor.read_u, ReadCursor.read_bool,
      List.headD_cons, List.tail_cons]
    rw [ih (v / 2) s (k + 1) hv2]
    have hvv : bitVal (decide (v % 2 = 1)) + 2 * (v / 2) = v := by
      rw [hb]
      omega
    have hk : k + 1 + m = k + (m + 1) := by omega
    rw [hvv, hk]

/-- Dropping the length of a replicated prefix uncovers the suffix
(auxiliary to C4). -/
theorem drop_replicate_append {A : Type} (n : Nat) (a : A) (s : List A) :
    (List.replicate n a ++ s).drop n = s := by
  have h := List.drop_left (List.replicate n a) s
  simp only [List.length_replicate] at h
  exact h

/-- Aligning at offset `k` skips exactly the padding bits (auxiliary to
C4). -/
theorem read_align_pad (s : List Bool) (k : Nat) :
    ReadCursor.align_to_8_bits ⟨List.replicate (padCount k) false ++ s, k⟩
      = ⟨s, k + padCount k⟩ := by
  unfold ReadCursor.align_to_8_bits
  simp [drop_replicate_append]

/-- Aligning at a byte boundary is the identity (auxiliary to C4). -/
theorem read_align_aligned (c : ReadCursor) (h : padCount c.consumed = 0) :
    ReadCursor.align_to_8_bits c = c := by
  unfold ReadCursor.align_to_8_bits
  rw [h]
  simp

/-- The bit stream produced by serializing an `Outer` value: 13 bits of `a`,
3 zero pad bits, the 8 bits of the nested `Inner`, and 41 bits of `b`
(auxiliary to C4). -/
theorem outer_serialize_bits (v : OuterV) :
    (OuterV.serialize v ⟨[]⟩).bits
      = natToBits 13 v.a
          ++ (List.replicate 3 false
          ++ (v.inner.a :: v.inner.b :: v.inner.c
          :: (natToBits 5 v.inner.d ++ natToBits 41 v.b))) := by
  unfold OuterV.serialize writeCompositeInner InnerV.serialize
  unfold WriteCursor.write_u WriteCursor.write_bool WriteCursor.align_to_8_bits
  simp [natToBits_length, padCount, List.append_assoc]

/-- Deserializing the serialized bit stream of an `Outer` value (with the
7 trailing pad bits of the final byte) recovers the value (auxiliary to
C4). -/
theorem outer_deserialize_bits (a d b : Nat) (ia ib ic : Bool)
    (ha : a < 2 ^ 13) (hd : d < 2 ^ 5) (hb : b < 2 ^ 41) :
    OuterV.deserialize
      ⟨natToBits 13 a
        ++ (List.replicate 3 false
        ++ (ia :: ib :: ic
        :: (natToBits 5 d ++ (natToBits 41 b ++ List.replicate 7 false)))), 0⟩
      = (⟨a, ⟨ia, ib, ic, d⟩, b⟩, ⟨List.replicate 7 false, 65⟩) := by
  have h13 := read_u_append 13 a
    (List.replicate 3 false
      ++ (ia :: ib :: ic
      :: (natToBits 5 d ++ (natToBits 41 b ++ List.replicate 7 false)))) 0 ha
  have halign13 :
      ReadCursor.align_to_8_bits
        ⟨List.replicate 3 false
          ++ (ia :: ib :: ic
          :: (natToBits 5 d ++ (natToBits 41 b ++ List.replicate 7 false))), 13⟩
        = ⟨ia :: ib :: ic
            :: (natToBits 5 d ++ (natToBits 41 b ++ List.replicate 7 false)), 16⟩ := by
    have h := read_align_pad
      (ia :: ib :: ic :: (natToBits 5 d ++ (natToBits 41 b ++ List.replicate 7 false)))
      13
    simpa [padCount] using h
  have h5 := read_u_append 5 d (natToBits 41 b ++ List.replicate 7 false) 19 hd
  have h41 := read_u_append 41 b (List.replicate 7 false) 24 hb
  have halign16 :
      ReadCursor.align_to_8_bits
        ⟨ia :: ib :: ic
          :: (natToBits 5 d ++ (natToBits 41 b ++ List.replicate 7 false)), 16⟩
        = ⟨ia :: ib :: ic
            :: (natToBits 5 d ++ (natToBits 41 b ++ List.replicate 7 false)), 16⟩ :=
    read_align_aligned _ (by simp [padCount])
  have halign24 :
      ReadCursor.align_to_8_bits ⟨natToBits 41 b ++ List.replicate 7 false, 24⟩
        = ⟨natToBits 41 b ++ List.replicate 7 false, 24⟩ :=
    read_align_aligned _ (by simp [padCount])
  simp only [OuterV.deserialize, readCompositeInner, InnerV.deserialize,
    h13, halign13, halign16, ReadCursor.read_bool, List.headD_cons, List.tail_cons,
    h5, halign24, h41]

/-- C4: serializing an in-range `Outer` value with the write cursor and
deserializing the produced bytes with the read cursor yields the original
value; in particular the test value
`{a: 0x1621, inner: {a: false, b: true, c: true, d: 0x19}, b: 0x137ab90ceda}`
serializes to exactly the nine bytes
`[0x21, 0x16, 0xCE, 0xda, 0xce, 0x90, 0xab, 0x37, 0x01]`
(`0xCE = 0b11001_110`). -/
theorem c4_composite_roundtrip :
    (∀ v : OuterV, v.a < 2 ^ 13 → v.inner.d < 2 ^ 5 → v.b < 2 ^ 41 →
      OuterV.deserialize_from_bytes (OuterV.serialize_to_bytes v) = v)
    ∧ OuterV.serialize_to_bytes ⟨0x1621, ⟨false, true, true, 0x19⟩, 0x137ab90ceda⟩
        = [0x21, 0x16, 0xCE, 0xda, 0xce, 0x90, 0xab, 0x37, 0x01] := by
  constructor
  · rintro ⟨a, ⟨ia, ib, ic, d⟩, b⟩ ha hd hb
    unfold OuterV.deserialize_from_bytes OuterV.serialize_to_bytes
    rw [outer_serialize_bits]
    rw [bytesToBits_bitsToBytes
      (natToBits 13 a
        ++ (List.replicate 3 false
        ++ (ia :: ib :: ic :: (natToBits 5 d ++ natToBits 41 b)))).length
      _ (le_refl _)]
    have hlen : (natToBits 13 a
        ++ (List.replicate 3 false
        ++ (ia :: ib :: ic :: (natToBits 5 d ++ natToBits 41 b)))).length = 65 := by
      simp [natToBits_length]
    rw [hlen]
    rw [show padCount 65 = 7 from rfl]
    rw [show (natToBits 13 a
        ++ (List.replicate 3 false
        ++ (ia :: ib :: ic :: (natToBits 5 d ++ natToBits 41 b))))
        ++ List.replicate 7 false
      = natToBits 13 a
        ++ (List.replicate 3 false
        ++ (ia :: ib :: ic
        :: (natToBits 5 d ++ (natToBits 41 b ++ List.replicate 7 false))))
      from by simp [List.append_assoc]]
    rw [outer_deserialize_bits a d b ia ib ic ha hd hb]
  · decide

/-- Concrete instance of the C4 round-trip at the test value of
composite1.rs. -/
theorem c4_composite_roundtrip_witness :
    OuterV.deserialize_from_bytes
        (OuterV.serialize_to_bytes ⟨0x1621, ⟨false, true, true, 0x19⟩, 0x137ab90ceda⟩)
      = ⟨0x1621, ⟨false, true, true, 0x19⟩, 0x137ab90ceda⟩ :=
  c4_composite_roundtrip.1 ⟨0x1621, ⟨false, true, true, 0x19⟩, 0x137ab90ceda⟩
    (by decide) (by decide) (by decide)

end Canadensis

